import Mathlib

/-!
Shallow embedding of the credwrap repository (github.com/openclaw/credwrap):
a privilege-separated credential broker.  The embedding follows the Go
sources under `internal/config`, `internal/server` and
`cmd/credwrap-server`; external library behaviour (Go `regexp`, `net`,
`filippo.io/age`, YAML) is modelled symbolically from its documented
semantics, which the sources rely on.
-/

namespace Credwrap

/-! ## Go regexp fragment

`Tool.ValidateArgs` (internal/config/config.go) calls
`regexp.Regexp.MatchString`, whose RE2 semantics is: the pattern matches
some substring of the subject; the anchors caret and dollar match only at
the start and end of the whole subject.  We embed the fragment of RE2
needed by the configuration patterns in play: character ranges,
concatenation, one-or-more repetition, and the two anchors. -/

/-- Abstract syntax of the embedded RE2 fragment. -/
inductive Regex where
  | eps : Regex
  | cls (lo hi : Char) : Regex
  | seq (a b : Regex) : Regex
  | plus (a : Regex) : Regex
  | bol : Regex
  | eol : Regex
deriving DecidableEq, Repr

/-- End positions `j` such that the regex matches the span from `i` to `j`
of the subject `t`; anchors refer to the whole subject.  `fuel` bounds the
recursion (one unit per syntax layer or repetition step). -/
def matchEnds : Nat → Regex → List Char → Nat → List Nat
  | 0, _, _, _ => []
  | Nat.succ fuel, r, t, i =>
    match r with
    | .eps => [i]
    | .bol => if i = 0 then [i] else []
    | .eol => if i = t.length then [i] else []
    | .cls lo hi =>
      match t[i]? with
      | some c => if lo ≤ c ∧ c ≤ hi then [i + 1] else []
      | none => []
    | .seq a b => (matchEnds fuel a t i).flatMap (fun j => matchEnds fuel b t j)
    | .plus a =>
      let js := matchEnds fuel a t i
      js ++ js.flatMap (fun j => if i < j then matchEnds fuel (.plus a) t j else [])

/-- Syntactic size of a regex, used to bound the matcher's fuel. -/
def Regex.size : Regex → Nat
  | .eps => 1
  | .bol => 1
  | .eol => 1
  | .cls _ _ => 1
  | .seq a b => a.size + b.size + 1
  | .plus a => a.size + 1

/-- Match spans starting at `i`, with fuel ample for the subject length. -/
def matchSpans (r : Regex) (t : List Char) (i : Nat) : List Nat :=
  matchEnds ((r.size + 2) * (t.length + 2) + 2) r t i

/-- Go `regexp.MatchString`: the pattern matches at some start position
(substring search, not anchored). -/
def matchString (re : Regex) (s : String) : Bool :=
  (List.range (s.length + 1)).any (fun i => !(matchSpans re s.data i).isEmpty)

/-- Full-match predicate in the sense of the specification: the pattern
matches the entire argument, from position zero to the end. -/
def fullMatch (re : Regex) (s : String) : Bool :=
  (matchSpans re s.data 0).contains s.length

/-- The pattern from the specification examples, source text caret [a-z]+ dollar. -/
def lowerAnchored : Regex :=
  .seq .bol (.seq (.plus (.cls 'a' 'z')) .eol)

/-- The same character-class pattern without anchors, source text [a-z]+. -/
def lowerPlain : Regex :=
  .plus (.cls 'a' 'z')

/-! ## Configuration model (internal/config/config.go) -/

/-- Go struct `config.Credential`: how to inject one credential. -/
structure Credential where
  env : String := ""
  header : String := ""
  flag : String := ""
  secret : String := ""
deriving DecidableEq, Repr

/-- Go struct `config.Tool`: an allowed tool.  `argsRegex` is the compiled
`ArgsPattern` (set by `LoadConfig` when the pattern is non-empty). -/
structure Tool where
  path : String := ""
  credentials : List Credential := []
  passArgs : Bool := false
  argsRegex : Option Regex := none
deriving DecidableEq, Repr

/-- Loop body of `Tool.ValidateArgs`: first argument failing
`MatchString` yields the error. -/
def validateArgsLoop (re : Regex) : List String → Except String Unit
  | [] => .ok ()
  | a :: rest =>
    if matchString re a then validateArgsLoop re rest
    else .error ("argument \"" ++ a ++ "\" does not match allowed pattern")

/-- Go method `Tool.ValidateArgs` (config.go lines 88 to 100). -/
def Tool.validateArgs (t : Tool) (args : List String) : Except String Unit :=
  if t.passArgs then .ok ()
  else
    match t.argsRegex with
    | some re => validateArgsLoop re args
    | none => .ok ()

/-- Go struct `config.AuthConfig`. -/
structure AuthConfig where
  tokens : List String := []
  tailscaleNodes : List String := []
  allowedIPs : List String := []
  requireToken : Bool := false
deriving DecidableEq, Repr

/-- Go struct `config.Config`, restricted to the fields the session engine
reads.  `credentials` is the decrypted secret store (a Go string map,
embedded as an association list) and `tools` the registry map. -/
structure Config where
  auth : AuthConfig := {}
  tools : List (String × Tool) := []
  credentials : List (String × String) := []
deriving DecidableEq, Repr

/-- Go map lookup on an association list (first binding wins). -/
def lookupStr (m : List (String × String)) (k : String) : Option String :=
  (m.find? (fun p => p.1 = k)).map (fun p => p.2)

/-- Go map lookup in the tool registry. -/
def lookupTool (m : List (String × Tool)) (k : String) : Option Tool :=
  (m.find? (fun p => p.1 = k)).map (fun p => p.2)

/-! ## Peer address handling (internal/server/server.go)

`extractIP` wraps `net.SplitHostPort`; `matchIP` wraps `net.ParseCIDR`,
`net.ParseIP` and `IPNet.Contains`.  The `net` primitives are library
code, embedded here for the IPv4 dotted-quad forms the configuration
uses (the IPv6 textual forms are not modelled; an address that is not a
well-formed IPv4 literal simply fails to parse, as in Go). -/

/-- Index of the last occurrence of `c` in `l`, if any. -/
def lastIdxOf (c : Char) (l : List Char) : Option Nat :=
  (List.range l.length).foldl (fun acc i => if l[i]? = some c then some i else acc) none

/-- Behavioural model of `net.SplitHostPort` restricted to the host part:
split at the last colon, strip one pair of square brackets, reject a
bracketless host that still contains a colon.  Returns `none` where Go
returns an error. -/
def splitHostPort (s : String) : Option String :=
  match lastIdxOf ':' s.data with
  | none => none
  | some i =>
    let hostPart := s.data.take i
    if hostPart.head? = some '[' then
      if hostPart.getLast? = some ']' then
        some (String.mk ((hostPart.drop 1).dropLast))
      else none
    else if hostPart.contains ':' then none
    else some (String.mk hostPart)

/-- Go function `extractIP` (server.go lines 318 to 324): the host part of
a host-port string, or the input itself when splitting fails. -/
def extractIP (remoteAddr : String) : String :=
  match splitHostPort remoteAddr with
  | some host => host
  | none => remoteAddr

/-- Split a character list at every occurrence of the separator. -/
def splitOnChar (c : Char) : List Char → List (List Char)
  | [] => [[]]
  | x :: xs =>
    match splitOnChar c xs with
    | [] => if x = c then [[], []] else [[x]]
    | h :: t => if x = c then [] :: h :: t else (x :: h) :: t

/-- Value of a decimal digit string. -/
def digitsToNat (l : List Char) : Nat :=
  l.foldl (fun acc c => acc * 10 + (c.toNat - 48)) 0

/-- Parse one decimal field of a dotted quad (Go rejects empty fields,
non-digits, values above 255 and leading zeros). -/
def parseOctet (l : List Char) : Option Nat :=
  if l.isEmpty then none
  else if !l.all (fun c => c.isDigit) then none
  else if l.length > 1 && l.head? == some '0' then none
  else if digitsToNat l ≤ 255 then some (digitsToNat l) else none

/-- Model of `net.ParseIP` on IPv4 dotted-quad literals, as the 32-bit
numeric address. -/
def parseIPv4 (s : String) : Option Nat :=
  match (splitOnChar '.' s.data).mapM parseOctet with
  | some [a, b, c, d] => some (((a * 256 + b) * 256 + c) * 256 + d)
  | _ => none

/-- Parse a decimal prefix length. -/
def parsePrefixLen (l : List Char) : Option Nat :=
  if l.isEmpty then none
  else if !l.all (fun c => c.isDigit) then none
  else some (digitsToNat l)

/-- Model of `net.ParseCIDR` on IPv4 prefixes: the base address and the
prefix length. -/
def parseCIDR (s : String) : Option (Nat × Nat) :=
  match splitOnChar '/' s.data with
  | [ipChars, bitsChars] =>
    match parseIPv4 (String.mk ipChars), parsePrefixLen bitsChars with
    | some ip, some bits => if bits ≤ 32 then some (ip, bits) else none
    | _, _ => none
  | _ => none

/-- Model of `IPNet.Contains`: the first `bits` bits of the address agree
with the network base. -/
def cidrContains (base bits ip : Nat) : Bool :=
  ip / 2 ^ (32 - bits) = base / 2 ^ (32 - bits)

/-- Go function `matchIP` (server.go lines 327 to 345): exact textual
equality first, then CIDR containment. -/
def matchIP (clientIP allowed : String) : Bool :=
  if clientIP = allowed then true
  else
    match parseCIDR allowed with
    | none => false
    | some (base, bits) =>
      match parseIPv4 clientIP with
      | none => false
      | some ip => cidrContains base bits ip

/-! ## Authorization decision (internal/server/server.go)

The Tailscale whois lookup (`getTailscaleNodeID`) is an out-of-band HTTP
query; it enters the embedding as a function from the remote address to
the reported node id, with the empty string standing for every failure
path of the lookup, exactly as the Go function returns `""` on error. -/

/-- Go method `Server.authenticate` (server.go lines 267 to 315). -/
def authenticate (auth : AuthConfig) (token remoteAddr : String)
    (whois : String → String) : Bool :=
  let tokenValid := auth.tokens.any (fun t => token = t)
  let ipValid :=
    if auth.allowedIPs.length > 0 then
      auth.allowedIPs.any (fun allowed => matchIP (extractIP remoteAddr) allowed)
    else true
  let tailscaleValid :=
    if auth.tailscaleNodes.length > 0 then
      auth.tailscaleNodes.any (fun allowed => whois remoteAddr = allowed)
    else false
  if auth.requireToken ∨ (auth.tokens.length > 0 ∧ auth.allowedIPs.length = 0 ∧ auth.tailscaleNodes.length = 0) then
    tokenValid && ipValid
  else
    tokenValid || (ipValid && decide (auth.allowedIPs.length > 0)) || tailscaleValid

/-! ### The specification's authorization predicate

Section 4.4.1 of the specification words the decision through three
auxiliary predicates; they are transcribed here verbatim so that the
implementation can be compared against them. -/

/-- Specification `token_ok`: the presented token is non-empty and present
in the configured token set. -/
def specTokenOk (auth : AuthConfig) (token : String) : Bool :=
  token ≠ "" && decide (token ∈ auth.tokens)

/-- Specification `ip_ok`: the allowlist is empty, or the peer IP matches
a listed address or CIDR block. -/
def specIpOk (auth : AuthConfig) (clientIP : String) : Bool :=
  auth.allowedIPs.isEmpty || auth.allowedIPs.any (fun a => matchIP clientIP a)

/-- Specification `node_ok`: the peer-identity attestation resolves to a
node id in the configured node allowlist. -/
def specNodeOk (auth : AuthConfig) (nodeID : String) : Bool :=
  decide (nodeID ∈ auth.tailscaleNodes)

/-- Specification section 4.4.1 decision, exactly as worded. -/
def specDecision (auth : AuthConfig) (token clientIP nodeID : String) : Bool :=
  if auth.requireToken || (!auth.tokens.isEmpty && auth.allowedIPs.isEmpty && auth.tailscaleNodes.isEmpty) then
    specTokenOk auth token && specIpOk auth clientIP
  else
    specTokenOk auth token || (specIpOk auth clientIP && !auth.allowedIPs.isEmpty) || specNodeOk auth nodeID

/-- Amended `token_ok`: membership in the configured token set, with no
non-emptiness requirement (the implementation compares the presented token
against each configured token directly). -/
def amendedTokenOk (auth : AuthConfig) (token : String) : Bool :=
  decide (token ∈ auth.tokens)

/-- The decision of section 4.4.1 with `token_ok` amended to plain
membership. -/
def amendedDecision (auth : AuthConfig) (token clientIP nodeID : String) : Bool :=
  if auth.requireToken || (!auth.tokens.isEmpty && auth.allowedIPs.isEmpty && auth.tailscaleNodes.isEmpty) then
    amendedTokenOk auth token && specIpOk auth clientIP
  else
    amendedTokenOk auth token || (specIpOk auth clientIP && !auth.allowedIPs.isEmpty) || specNodeOk auth nodeID

/-! ## Session engine (internal/server/server.go, handleExec)

The wire records a single exec dispatch emits, and the audit records it
appends, as functions of the configuration, the request, and the
behaviour of the operating system for the spawned child.  The
OS-dependent part (pipe creation, process start, the two output pumps and
the exit status) enters as an explicit `ExecBehavior` value; its `events`
field is the one interleaving of the stdout and stderr scanner lines that
the two concurrent pumps produced on the wire, so every theorem below
quantifies over all interleavings.  Stdin forwarding writes into the
child and emits no server record, so it does not appear. -/

/-- Server-to-client wire records (internal/protocol/protocol.go). -/
inductive Rec where
  | started (pid : Int) : Rec
  | stdout (data : String) : Rec
  | stderr (data : String) : Rec
  | exit (code : Int) : Rec
  | error (message : String) : Rec
  | pong (version : String) : Rec
deriving DecidableEq, Repr

/-- One line read from the child's stdout or stderr pump. -/
inductive OutEvent where
  | out (data : String) : OutEvent
  | err (data : String) : OutEvent
deriving DecidableEq, Repr

/-- Wire record for one output event (`streamOutput`). -/
def OutEvent.wire : OutEvent → Rec
  | .out d => .stdout d
  | .err d => .stderr d

/-- One audit-log entry (`Server.audit`); the timestamp and duration are
wall-clock values with no bearing on any claim and are omitted. -/
structure AuditEntry where
  client : String
  tool : String
  args : List String
  exitCode : Int
  status : String
deriving DecidableEq, Repr

/-- Behaviour of the operating system for one exec dispatch: failures of
the three pipe creations and of `cmd.Start`, and on success the child's
pid, one wire interleaving of its output lines, and its exit code
(already collapsed to -1 for abnormal termination, as `cmd.Wait`
handling does). -/
structure ExecBehavior where
  stdoutPipeErr : Option String := none
  stderrPipeErr : Option String := none
  stdinPipeErr : Option String := none
  startErr : Option String := none
  pid : Int := 0
  events : List OutEvent := []
  exitCode : Int := 0
deriving DecidableEq, Repr

/-- Exec request fields the session engine reads
(internal/protocol/protocol.go, ExecRequest). -/
structure ExecRequest where
  token : String := ""
  tool : String := ""
  args : List String := []
  env : List (String × String) := []
deriving DecidableEq, Repr

/-- Credential-environment construction (server.go lines 146 to 157): one
entry per binding whose `Env` target is non-empty, resolved in the
secret store; the first such binding naming an absent secret aborts with
the credential-not-found error. -/
def buildCredEnv (store : List (String × String)) : List Credential → Except String (List String)
  | [] => .ok []
  | c :: rest =>
    if c.env ≠ "" then
      match lookupStr store c.secret with
      | none => .error ("credential not found: " ++ c.secret)
      | some v =>
        match buildCredEnv store rest with
        | .error e => .error e
        | .ok tail => .ok ((c.env ++ "=" ++ v) :: tail)
    else buildCredEnv store rest

/-- The first credential binding with a non-empty `Env` target whose
secret is absent from the store, if any. -/
def firstMissingCred (store : List (String × String)) : List Credential → Option Credential
  | [] => none
  | c :: rest =>
    if c.env ≠ "" ∧ lookupStr store c.secret = none then some c
    else firstMissingCred store rest

/-- Go method `Server.handleExec` (server.go lines 121 to 255): the wire
records and audit entries of one exec dispatch, in emission order. -/
def handleExec (cfg : Config) (remoteAddr : String) (req : ExecRequest)
    (whois : String → String) (b : ExecBehavior) : List Rec × List AuditEntry :=
  if ¬ authenticate cfg.auth req.token remoteAddr whois then
    ([.error "authentication failed"],
     [⟨remoteAddr, req.tool, req.args, -1, "auth_failed"⟩])
  else
    match lookupTool cfg.tools req.tool with
    | none =>
      ([.error ("unknown tool: " ++ req.tool)],
       [⟨remoteAddr, req.tool, req.args, -1, "unknown_tool"⟩])
    | some tool =>
      match tool.validateArgs req.args with
      | .error msg =>
        ([.error msg], [⟨remoteAddr, req.tool, req.args, -1, "invalid_args"⟩])
      | .ok () =>
        match buildCredEnv cfg.credentials tool.credentials with
        | .error msg => ([.error msg], [])
        | .ok _ =>
          match b.stdoutPipeErr with
          | some e => ([.error ("stdout pipe: " ++ e)], [])
          | none =>
            match b.stderrPipeErr with
            | some e => ([.error ("stderr pipe: " ++ e)], [])
            | none =>
              match b.stdinPipeErr with
              | some e => ([.error ("stdin pipe: " ++ e)], [])
              | none =>
                match b.startErr with
                | some e =>
                  ([.error ("start: " ++ e)],
                   [⟨remoteAddr, req.tool, req.args, -1, "start_failed"⟩])
                | none =>
                  (.started b.pid :: b.events.map OutEvent.wire ++ [.exit b.exitCode],
                   [⟨remoteAddr, req.tool, req.args, b.exitCode, "ok"⟩])

/-- All pure checks pass and the OS reports no pipe or start failure. -/
def execSucceeds (cfg : Config) (remoteAddr : String) (req : ExecRequest)
    (whois : String → String) (b : ExecBehavior) : Prop :=
  authenticate cfg.auth req.token remoteAddr whois = true ∧
  (∃ tool env, lookupTool cfg.tools req.tool = some tool ∧
    tool.validateArgs req.args = .ok () ∧
    buildCredEnv cfg.credentials tool.credentials = .ok env) ∧
  b.stdoutPipeErr = none ∧ b.stderrPipeErr = none ∧ b.stdinPipeErr = none ∧
  b.startErr = none

/-- Record classifier: is this a started record. -/
def Rec.isStarted : Rec → Bool
  | .started _ => true
  | _ => false

/-- Record classifier: is this an exit record. -/
def Rec.isExit : Rec → Bool
  | .exit _ => true
  | _ => false

/-- Record classifier: is this a stdout or stderr record. -/
def Rec.isOutput : Rec → Bool
  | .stdout _ => true
  | .stderr _ => true
  | _ => false

/-- Record classifier: is this an error record. -/
def Rec.isError : Rec → Bool
  | .error _ => true
  | _ => false

/-! ## Secret store codec (cmd/credwrap-server/tools.go, main.go,
internal/config/config.go)

The age library (scrypt passphrase encryption) and the YAML codec are
external dependencies; they are modelled symbolically by their documented
behaviour: an age scrypt ciphertext decrypts exactly under the passphrase
it was produced with, yielding the enclosed plaintext, and a YAML
marshal of a string map unmarshals to the same map.  Fresh encryption
randomness is not modelled, so equality of `FileData` values stands for
byte equality of files.  Keyfiles are plain text files. -/

/-- Plaintext inside an encrypted container: either a well-formed YAML
string map, or bytes the YAML codec rejects. -/
inductive PlainBody where
  | yamlMap (m : List (String × String)) : PlainBody
  | junk (s : String) : PlainBody
deriving DecidableEq, Repr

/-- Contents of one file: an age scrypt container, or plain text. -/
inductive FileData where
  | age (password : String) (body : PlainBody) : FileData
  | plain (s : String) : FileData
deriving DecidableEq, Repr

/-- The filesystem visible to the secrets tooling: path to contents. -/
def FS := List (String × FileData)
deriving DecidableEq

/-- Read a file (`os.ReadFile`): the binding for the path, if present. -/
def lookupFile (fs : FS) (path : String) : Option FileData :=
  (fs.find? (fun p => p.1 = path)).map (fun p => p.2)

/-- Read a file as text; an age container carries no usable text here
(keyfiles are plain text files in every configuration modelled). -/
def readText (fs : FS) (path : String) : Option String :=
  match lookupFile fs path with
  | some (.plain s) => some s
  | _ => none

/-- Write a file (`os.WriteFile` with mode 0600): replace any previous
binding for the path. -/
def fsWrite (fs : FS) (path : String) (d : FileData) : FS :=
  (path, d) :: fs.filter (fun p => p.1 != path)

/-- Decrypt an age scrypt container (`age.Decrypt` with a scrypt
identity): succeeds exactly under the producing passphrase. -/
def ageDecrypt (password : String) (d : FileData) : Option PlainBody :=
  match d with
  | .age pw body => if pw = password then some body else none
  | .plain _ => none

/-- Go `unicode.IsSpace` on the ASCII whitespace the keyfile convention
meets (space, tab, newline, vertical tab, form feed, carriage return). -/
def isGoSpace (c : Char) : Bool :=
  c = ' ' || c = '\t' || c = '\n' || c = '\x0b' || c = '\x0c' || c = '\r'

/-- Go `strings.TrimSpace`. -/
def trimSpace (s : String) : String :=
  String.mk (((s.data.dropWhile isGoSpace).reverse.dropWhile isGoSpace).reverse)

/-- Go `filepath.Dir` on the already-clean paths the tooling passes. -/
def goDir (p : String) : String :=
  match lastIdxOf '/' p.data with
  | none => "."
  | some 0 => "/"
  | some i => String.mk (p.data.take i)

/-- Go `filepath.Join` of a directory and one file name. -/
def goJoin (dir file : String) : String :=
  if dir = "." then file
  else if dir = "/" then "/" ++ file
  else dir ++ "/" ++ file

/-- Go function `getPassword` (tools.go lines 286 to 318): explicit
keyfile, else the sidecar keyfile next to the ciphertext, else a file
named keyfile in the same directory, else one interactive prompt.
Interactive reads are modelled by the `prompts` list, consumed in
order. -/
def getPassword (fs : FS) (credsPath keyfilePath : String)
    (prompts : List String) : Except String String :=
  if keyfilePath ≠ "" then
    match readText fs keyfilePath with
    | some d => .ok (trimSpace d)
    | none => .error "reading keyfile"
  else
    match readText fs (credsPath ++ ".keyfile") with
    | some d => .ok (trimSpace d)
    | none =>
      match readText fs (goJoin (goDir credsPath) "keyfile") with
      | some d => .ok (trimSpace d)
      | none =>
        match prompts.head? with
        | some p => .ok p
        | none => .error "reading password"

/-- Go function `getNewPassword` (tools.go lines 321 to 351): explicit
keyfile if provided; otherwise two interactive prompts whose disagreement
is the password-mismatch failure. -/
def getNewPassword (fs : FS) (keyfilePath : String)
    (prompts : List String) : Except String String :=
  if keyfilePath ≠ "" then
    match readText fs keyfilePath with
    | some d => .ok (trimSpace d)
    | none => .error "reading keyfile"
  else
    match prompts with
    | p1 :: p2 :: _ => if p1 ≠ p2 then .error "passwords don't match" else .ok p1
    | _ => .error "reading password"

/-- Password acquisition at daemon startup (cmd/credwrap-server/main.go
lines 76 to 93): the explicit keyfile flag if set, else a single
interactive prompt; no sidecar or directory keyfile is consulted. -/
def serverPassword (fs : FS) (keyfile : String)
    (prompts : List String) : Except String String :=
  if keyfile ≠ "" then
    match readText fs keyfile with
    | some d => .ok (trimSpace d)
    | none => .error "reading keyfile"
  else
    match prompts.head? with
    | some p => .ok p
    | none => .error "reading password"

/-- The password-source precedence exactly as section 4.1 of the
specification words it, for every secret-store operation: explicit
keyfile path, then the sidecar keyfile, then the directory keyfile, then
an interactive prompt. -/
def specPasswordSource (fs : FS) (credsPath keyfilePath : String)
    (prompts : List String) : Except String String :=
  if keyfilePath ≠ "" then
    match readText fs keyfilePath with
    | some d => .ok (trimSpace d)
    | none => .error "reading keyfile"
  else
    match readText fs (credsPath ++ ".keyfile") with
    | some d => .ok (trimSpace d)
    | none =>
      match readText fs (goJoin (goDir credsPath) "keyfile") with
      | some d => .ok (trimSpace d)
      | none =>
        match prompts.head? with
        | some p => .ok p
        | none => .error "reading password"

/-- Overwrite confirmation check of `initCredentials`: the trimmed,
lowercased response starts with the letter y. -/
def confirmYes (response : String) : Bool :=
  (trimSpace response).toLower.startsWith "y"

/-- Go function `initCredentials` (tools.go lines 537 to 569): confirm an
overwrite, acquire a fresh password, write the encryption of the empty
mapping. -/
def initCredentials (fs : FS) (credsPath keyfilePath : String)
    (prompts : List String) (confirmLine : String) : Except String FS :=
  if (lookupFile fs credsPath).isSome && !confirmYes confirmLine then
    .error "aborted"
  else
    match getNewPassword fs keyfilePath prompts with
    | .error e => .error e
    | .ok password => .ok (fsWrite fs credsPath (.age password (.yamlMap [])))

/-- Go function `config.LoadCredentialsEncrypted` (config.go lines 118 to
151): read, decrypt under the scrypt identity, parse the YAML map. -/
def LoadCredentialsEncrypted (fs : FS) (path password : String) :
    Except String (List (String × String)) :=
  match lookupFile fs path with
  | none => .error "reading encrypted credentials"
  | some d =>
    match ageDecrypt password d with
    | none => .error "decrypting credentials (wrong password?)"
    | some (.yamlMap m) => .ok m
    | some (.junk _) => .error "parsing credentials"

/-- The store step shared by the mutation tools (tools.go: the tail of
`addSecret`, `removeSecret` and `initCredentials`): serialize the
mapping, encrypt under a fresh scrypt recipient for the password, write
the file. -/
def writeEncrypted (fs : FS) (path password : String)
    (m : List (String × String)) : FS :=
  fsWrite fs path (.age password (.yamlMap m))

/-- Go map update `creds[k] = v` on the association-list embedding. -/
def setKey (m : List (String × String)) (k v : String) : List (String × String) :=
  if m.any (fun p => p.1 = k) then m.map (fun p => if p.1 = k then (k, v) else p)
  else m ++ [(k, v)]

/-- Go map deletion `delete(creds, k)` on the association-list embedding. -/
def eraseKey (m : List (String × String)) (k : String) : List (String × String) :=
  m.filter (fun p => p.1 != k)

/-- Go function `addSecret` (tools.go lines 353 to 441): decrypt the
existing mapping (or start fresh for a new file), insert the secret,
re-encrypt and write.  `secretValue` is the echo-disabled interactive
read of the value. -/
def addSecret (fs : FS) (credsPath secretName keyfilePath : String)
    (prompts : List String) (secretValue : String) : Except String FS :=
  let isNew := (lookupFile fs credsPath).isNone
  match (if isNew then getNewPassword fs keyfilePath prompts
         else getPassword fs credsPath keyfilePath prompts) with
  | .error e => .error e
  | .ok password =>
    match (if isNew then Except.ok [] else
      match lookupFile fs credsPath with
      | none => Except.error "reading file"
      | some d =>
        match ageDecrypt password d with
        | none => Except.error "decrypting (wrong password?)"
        | some (.yamlMap m) => Except.ok m
        | some (.junk _) => Except.error "parsing credentials") with
    | .error e => .error e
    | .ok creds =>
      .ok (fsWrite fs credsPath (.age password (.yamlMap (setKey creds secretName secretValue))))

/-- Go function `removeSecret` (tools.go lines 482 to 535): read, acquire
the password, decrypt, parse, require the secret to exist, delete it,
re-encrypt and write.  The pair carries the command outcome and the
resulting filesystem; every early return leaves the filesystem as it
was, and only the final `os.WriteFile` replaces the store file.  (The Go
error message quotes the secret name; the quotes are dropped here.) -/
def removeSecret (fs : FS) (credsPath secretName keyfilePath : String)
    (prompts : List String) : Except String Unit × FS :=
  match lookupFile fs credsPath with
  | none => (.error "reading file", fs)
  | some d =>
    match getPassword fs credsPath keyfilePath prompts with
    | .error e => (.error e, fs)
    | .ok password =>
      match ageDecrypt password d with
      | none => (.error "decrypting (wrong password?)", fs)
      | some (.junk _) => (.error "parsing", fs)
      | some (.yamlMap creds) =>
        if lookupStr creds secretName = none then
          (.error ("secret " ++ secretName ++ " not found"), fs)
        else
          (.ok (), fsWrite fs credsPath (.age password (.yamlMap (eraseKey creds secretName))))

/-- Scanning a list for an element equal to `x` is list membership. -/
theorem any_eq_mem (l : List String) (x : String) :
    (l.any fun t => x = t) = decide (x ∈ l) := by
  induction l with
  | nil => rfl
  | cons h t ih =>
    simp only [List.any_cons, List.mem_cons, ih]
    by_cases hx : x = h <;> by_cases hm : x ∈ t <;> simp [hx, hm]

/-- The argument loop accepts exactly when every argument passes
`MatchString`. -/
theorem validateArgsLoop_ok_iff (re : Regex) (args : List String) :
    validateArgsLoop re args = .ok () ↔ ∀ a ∈ args, matchString re a = true := by
  induction args with
  | nil => simp [validateArgsLoop]
  | cons a rest ih =>
    by_cases h : matchString re a <;> simp [validateArgsLoop, h, ih]

/-- Claim C1, counterexample: with the token set containing the empty
string, no IP or node allowlist and `require_token` set, the daemon
accepts an exec request presenting the empty token, while the claimed
decision (whose `token_ok` demands a non-empty token) rejects it. -/
theorem C1_counterexample :
    authenticate { tokens := [""], requireToken := true } "" "127.0.0.1:1" (fun _ => "") = true ∧
    specDecision { tokens := [""], requireToken := true } "" (extractIP "127.0.0.1:1") "" = false := by
  constructor <;> decide

/-- Claim C1 as amended: for every configuration, presented token, peer
address and whois oracle, the authorization decision equals the section
4.4.1 rule with `token_ok` weakened to plain membership of the presented
token in the configured token set. -/
theorem C1_decision_amended :
    ∀ (auth : AuthConfig) (token remoteAddr : String) (whois : String → String),
    authenticate auth token remoteAddr whois =
      amendedDecision auth token (extractIP remoteAddr) (whois remoteAddr) := by
  intro auth token remoteAddr whois
  rcases auth with ⟨tokens, nodes, ips, req⟩
  simp only [authenticate, amendedDecision, amendedTokenOk, specIpOk, specNodeOk, any_eq_mem]
  cases req <;> cases tokens <;> cases ips <;> cases nodes <;>
    simp [any_eq_mem]

/-- Claim C2, counterexample: a tool configured with neither pass-through
arguments nor an argument pattern accepts a non-empty argument list, so
absence of an argument policy does not deny arguments. -/
theorem C2_counterexample :
    Tool.validateArgs { path := "/bin/date", passArgs := false, argsRegex := none }
      ["--anything", "; rm -rf /"] = .ok () := by
  rfl

/-- Claim C2 as amended: for every tool enabling neither pass-through nor
a pattern, argument validation accepts every argument list (absent
argument policy means allow-all, not deny-all). -/
theorem C2_no_policy_allows_all (t : Tool) (args : List String)
    (hp : t.passArgs = false) (hr : t.argsRegex = none) :
    t.validateArgs args = .ok () := by
  simp [Tool.validateArgs, hp, hr]

/-- Claim C2 witness: the amended theorem applied at a concrete tool and
argument list. -/
theorem C2_witness :
    Tool.validateArgs { path := "/bin/date" } ["x"] = .ok () :=
  C2_no_policy_allows_all { path := "/bin/date" } ["x"] rfl rfl

/-- Claim C3, counterexample: for the unanchored pattern [a-z]+ the
argument "A b" is accepted by validation (Go substring matching finds
the "b"), though it does not fully match the pattern; full-match
semantics therefore fails for unanchored patterns. -/
theorem C3_counterexample :
    Tool.validateArgs { path := "/bin/date", argsRegex := some lowerPlain } ["A b"] = .ok () ∧
    fullMatch lowerPlain "A b" = false := by
  exact ⟨rfl, by decide⟩

/-- Claim C3 as amended: with a configured pattern and pass-through
disabled, an argument list is accepted iff every argument matches the
pattern under Go substring-search semantics (`MatchString`), not under
full-match semantics; for the doubly anchored pattern from the
specification the two coincide, and its concrete examples hold. -/
theorem C3_pattern_matchstring :
    (∀ (t : Tool) (re : Regex) (args : List String),
        t.passArgs = false → t.argsRegex = some re →
        (t.validateArgs args = .ok () ↔ ∀ a ∈ args, matchString re a = true)) ∧
    matchString lowerAnchored "hello" = true ∧
    matchString lowerAnchored "HELLO" = false ∧
    matchString lowerAnchored "hello world" = false ∧
    fullMatch lowerAnchored "hello" = true := by
  refine ⟨?_, by decide, by decide, by decide, by decide⟩
  intro t re args hp hr
  simp [Tool.validateArgs, hp, hr, validateArgsLoop_ok_iff]

/-- Claim C3 witness: the amended equivalence applied at a concrete tool,
pattern and argument list. -/
theorem C3_witness :
    Tool.validateArgs { path := "/bin/date", argsRegex := some lowerAnchored }
      ["hello"] = .ok () :=
  (C3_pattern_matchstring.1 { path := "/bin/date", argsRegex := some lowerAnchored }
      lowerAnchored ["hello"] rfl rfl).mpr (by decide)

/-- Claim C9: argument validation always accepts the empty argument list,
whatever the tool's pass-through flag and pattern. -/
theorem C9_empty_args_accepted (t : Tool) : t.validateArgs [] = .ok () := by
  by_cases h : t.passArgs
  · simp [Tool.validateArgs, h]
  · cases hr : t.argsRegex <;> simp [Tool.validateArgs, h, hr, validateArgsLoop]

/-- An output event's wire record is a stdout or stderr record. -/
theorem wire_isOutput (e : OutEvent) : (OutEvent.wire e).isOutput = true := by
  cases e <;> rfl

/-- Every exec dispatch emits either a single error record or the
started-outputs-exit sequence. -/
theorem handleExec_shape (cfg : Config) (remoteAddr : String) (req : ExecRequest)
    (whois : String → String) (b : ExecBehavior) :
    (∃ m, (handleExec cfg remoteAddr req whois b).1 = [Rec.error m]) ∨
    (handleExec cfg remoteAddr req whois b).1
      = .started b.pid :: b.events.map OutEvent.wire ++ [.exit b.exitCode] := by
  unfold handleExec
  repeat' split
  all_goals first
    | exact Or.inl ⟨_, rfl⟩
    | exact Or.inr rfl

/-- A dispatch whose checks and spawn all succeed emits the
started-outputs-exit sequence and one ok audit entry. -/
theorem handleExec_success (cfg : Config) (remoteAddr : String) (req : ExecRequest)
    (whois : String → String) (b : ExecBehavior)
    (h : execSucceeds cfg remoteAddr req whois b) :
    handleExec cfg remoteAddr req whois b
      = (.started b.pid :: b.events.map OutEvent.wire ++ [.exit b.exitCode],
         [⟨remoteAddr, req.tool, req.args, b.exitCode, "ok"⟩]) := by
  obtain ⟨hauth, ⟨tool, env, htool, hargs, hcred⟩, h1, h2, h3, h4⟩ := h
  simp [handleExec, hauth, htool, hargs, hcred, h1, h2, h3, h4]

/-- When some binding with a non-empty environment target names an
absent secret, environment construction fails with the
credential-not-found error for the first such binding. -/
theorem buildCredEnv_firstMissing (store : List (String × String))
    (creds : List Credential) (c : Credential)
    (h : firstMissingCred store creds = some c) :
    buildCredEnv store creds = .error ("credential not found: " ++ c.secret) := by
  induction creds with
  | nil => simp [firstMissingCred] at h
  | cons d rest ih =>
    by_cases he : d.env ≠ ""
    · by_cases hl : lookupStr store d.secret = none
      · have : d = c := by simpa [firstMissingCred, he, hl] using h
        subst this
        simp [buildCredEnv, he, hl]
      · obtain ⟨v, hv⟩ : ∃ v, lookupStr store d.secret = some v := by
          cases hx : lookupStr store d.secret with
          | none => exact absurd hx hl
          | some v => exact ⟨v, rfl⟩
        have hrest : firstMissingCred store rest = some c := by
          simpa [firstMissingCred, he, hl] using h
        simp [buildCredEnv, he, hv, ih hrest]
    · have hrest : firstMissingCred store rest = some c := by
        simpa [firstMissingCred, he] using h
      simp [buildCredEnv, he, ih hrest]

/-- Claim C4, counterexample: a tool whose only credential binding has an
empty environment target but names a secret absent from the store is
started anyway, with no credential-not-found error, so the missing-secret
check does not apply to every credential binding. -/
theorem C4_counterexample :
    (handleExec
        { auth := { tokens := ["t"] },
          tools := [("x", { path := "/bin/x",
                            credentials := [{ secret := "gone" }],
                            passArgs := true })],
          credentials := [] }
        "127.0.0.1:1" { token := "t", tool := "x" } (fun _ => "") { pid := 7 }).1
      = [Rec.started 7, Rec.exit 0] ∧
    lookupStr [] "gone" = none :=
  ⟨rfl, rfl⟩

/-- Claim C4 as amended: for every exec passing authorization, tool
resolution and argument validation, if some credential binding with a
non-empty environment target names an absent secret then the daemon
emits exactly one error record naming the first such secret, emits no
started record, writes no audit entry, and starts nothing. -/
theorem C4_credential_missing (cfg : Config) (remoteAddr : String)
    (req : ExecRequest) (whois : String → String) (b : ExecBehavior)
    (tool : Tool) (c : Credential)
    (hauth : authenticate cfg.auth req.token remoteAddr whois = true)
    (htool : lookupTool cfg.tools req.tool = some tool)
    (hargs : tool.validateArgs req.args = .ok ())
    (hmiss : firstMissingCred cfg.credentials tool.credentials = some c) :
    handleExec cfg remoteAddr req whois b
      = ([.error ("credential not found: " ++ c.secret)], []) := by
  simp [handleExec, hauth, htool, hargs, buildCredEnv_firstMissing _ _ _ hmiss]

/-- Claim C4 witness: the amended theorem at a concrete configuration with
an environment-targeted binding naming an absent secret. -/
theorem C4_witness :
    handleExec
        { auth := { tokens := ["t"] },
          tools := [("x", { path := "/bin/x",
                            credentials := [{ env := "K", secret := "gone" }],
                            passArgs := true })],
          credentials := [] }
        "127.0.0.1:1" { token := "t", tool := "x" } (fun _ => "") { pid := 7 }
      = ([.error "credential not found: gone"], []) :=
  C4_credential_missing _ _ _ _ _
    { path := "/bin/x", credentials := [{ env := "K", secret := "gone" }], passArgs := true }
    { env := "K", secret := "gone" }
    (by decide) rfl rfl rfl

/-- Claim C5: for every exec dispatch and every interleaving of the
output pumps, if an error record is emitted then no started record is,
and in a successful execution exactly one started record comes first,
exactly one exit record comes last, and everything between them is
stdout or stderr. -/
theorem C5_record_ordering (cfg : Config) (remoteAddr : String)
    (req : ExecRequest) (whois : String → String) (b : ExecBehavior) :
    (∀ m, Rec.error m ∈ (handleExec cfg remoteAddr req whois b).1 →
      ∀ p, Rec.started p ∉ (handleExec cfg remoteAddr req whois b).1) ∧
    (execSucceeds cfg remoteAddr req whois b →
      (handleExec cfg remoteAddr req whois b).1.countP (fun r => r.isStarted) = 1 ∧
      (handleExec cfg remoteAddr req whois b).1.countP (fun r => r.isExit) = 1 ∧
      (handleExec cfg remoteAddr req whois b).1.head? = some (.started b.pid) ∧
      (handleExec cfg remoteAddr req whois b).1.getLast? = some (.exit b.exitCode) ∧
      ∀ r ∈ ((handleExec cfg remoteAddr req whois b).1.drop 1).dropLast,
        r.isOutput = true) := by
  constructor
  · intro m hm p hp
    rcases handleExec_shape cfg remoteAddr req whois b with ⟨m', hS⟩ | hS
    · rw [hS] at hp
      simp at hp
    · rw [hS] at hm
      simp [List.mem_append, List.mem_map] at hm
      rcases hm with ⟨e, _, he⟩
      cases e <;> simp [OutEvent.wire] at he
  · intro h
    have hS := handleExec_success cfg remoteAddr req whois b h
    rw [hS]
    have hmids : ∀ r ∈ b.events.map OutEvent.wire, r.isOutput = true := by
      intro r hr
      rcases List.mem_map.mp hr with ⟨e, _, he⟩
      exact he ▸ wire_isOutput e
    refine ⟨?_, ?_, rfl, ?_, ?_⟩
    · simp [List.countP_cons, List.countP_append, Rec.isStarted]
      intro e _
      cases e <;> rfl
    · simp [List.countP_cons, List.countP_append, Rec.isExit]
      intro e _
      cases e <;> rfl
    · rw [show Rec.started b.pid :: List.map OutEvent.wire b.events ++ [Rec.exit b.exitCode]
            = (Rec.started b.pid :: List.map OutEvent.wire b.events) ++ [Rec.exit b.exitCode]
            from rfl,
        List.getLast?_concat]
    · rw [show (Rec.started b.pid :: List.map OutEvent.wire b.events
              ++ [Rec.exit b.exitCode]).drop 1
            = List.map OutEvent.wire b.events ++ [Rec.exit b.exitCode] from rfl,
        List.dropLast_concat]
      exact hmids

/-- Claim C5 witness: the ordering facts at a concrete successful
dispatch with one output line. -/
theorem C5_witness :
    (handleExec { auth := { tokens := ["t"] },
                  tools := [("e", { path := "/bin/echo", passArgs := true })] }
        "127.0.0.1:1" { token := "t", tool := "e" } (fun _ => "")
        { pid := 3, events := [.out "hi"] }).1.head?
      = some (.started 3) ∧
    (handleExec { auth := { tokens := ["t"] },
                  tools := [("e", { path := "/bin/echo", passArgs := true })] }
        "127.0.0.1:1" { token := "t", tool := "e" } (fun _ => "")
        { pid := 3, events := [.out "hi"] }).1.getLast?
      = some (.exit 0) := by
  have h := (C5_record_ordering
      { auth := { tokens := ["t"] },
        tools := [("e", { path := "/bin/echo", passArgs := true })] }
      "127.0.0.1:1" { token := "t", tool := "e" } (fun _ => "")
      { pid := 3, events := [.out "hi"] }).2
    ⟨by decide, ⟨{ path := "/bin/echo", passArgs := true }, [], rfl, rfl, rfl⟩,
      rfl, rfl, rfl, rfl⟩
  exact ⟨h.2.2.1, h.2.2.2.1⟩

/-- Claim C8: any two exec requests denied by authorization produce the
same wire output, the single constant error record, regardless of which
check failed. -/
theorem C8_uniform_denial (cfg₁ : Config) (addr₁ : String) (req₁ : ExecRequest)
    (whois₁ : String → String) (b₁ : ExecBehavior)
    (cfg₂ : Config) (addr₂ : String) (req₂ : ExecRequest)
    (whois₂ : String → String) (b₂ : ExecBehavior)
    (h₁ : authenticate cfg₁.auth req₁.token addr₁ whois₁ = false)
    (h₂ : authenticate cfg₂.auth req₂.token addr₂ whois₂ = false) :
    (handleExec cfg₁ addr₁ req₁ whois₁ b₁).1 = (handleExec cfg₂ addr₂ req₂ whois₂ b₂).1 ∧
    (handleExec cfg₁ addr₁ req₁ whois₁ b₁).1 = [.error "authentication failed"] := by
  simp [handleExec, h₁, h₂]

/-- Claim C8 witness: a token-check denial and an IP-check denial emit
the identical wire error. -/
theorem C8_witness :
    (handleExec { auth := { tokens := ["secret-token"], requireToken := true } }
        "127.0.0.1:1" { token := "wrong", tool := "x" } (fun _ => "") {}).1
      = (handleExec { auth := { tokens := ["a"], allowedIPs := ["10.0.0.1"],
                                requireToken := true } }
          "10.9.9.9:1" { token := "a", tool := "x" } (fun _ => "") {}).1 ∧
    (handleExec { auth := { tokens := ["secret-token"], requireToken := true } }
        "127.0.0.1:1" { token := "wrong", tool := "x" } (fun _ => "") {}).1
      = [.error "authentication failed"] :=
  C8_uniform_denial _ _ _ _ _ _ _ _ _ _ (by decide) (by decide)

/-- Writing a file then reading the same path yields what was written. -/
theorem lookupFile_fsWrite (fs : FS) (path : String) (d : FileData) :
    lookupFile (fsWrite fs path d) path = some d := by
  simp [lookupFile, fsWrite, List.find?]

/-- Claim C6: initializing a store then loading it under the same
password yields the empty mapping, and storing any mapping (serialize,
encrypt under a fresh scrypt recipient for the password, write) then
loading under the same password yields exactly that mapping. -/
theorem C6_roundtrip :
    (∀ (fs : FS) (path pw : String) (rest : List String)
        (confirmLine : String) (fs2 : FS),
      lookupFile fs path = none →
      initCredentials fs path "" (pw :: pw :: rest) confirmLine = .ok fs2 →
      LoadCredentialsEncrypted fs2 path pw = .ok []) ∧
    (∀ (fs : FS) (path pw : String) (m : List (String × String)),
      LoadCredentialsEncrypted (writeEncrypted fs path pw m) path pw = .ok m) := by
  constructor
  · intro fs path pw rest confirmLine fs2 habs hinit
    have : fs2 = fsWrite fs path (.age pw (.yamlMap [])) := by
      simp [initCredentials, habs, getNewPassword] at hinit
      exact hinit.symm
    subst this
    simp [LoadCredentialsEncrypted, lookupFile_fsWrite, ageDecrypt]
  · intro fs path pw m
    simp [LoadCredentialsEncrypted, writeEncrypted, lookupFile_fsWrite, ageDecrypt]

/-- Claim C6 witness: both round trips at a concrete path, password and
mapping. -/
theorem C6_witness :
    LoadCredentialsEncrypted [("s.enc", .age "pw" (.yamlMap []))] "s.enc" "pw"
      = .ok [] ∧
    LoadCredentialsEncrypted (writeEncrypted [] "s.enc" "pw" [("api-key", "v1")])
        "s.enc" "pw"
      = .ok [("api-key", "v1")] :=
  ⟨C6_roundtrip.1 [] "s.enc" "pw" [] "" [("s.enc", .age "pw" (.yamlMap []))] rfl rfl,
   C6_roundtrip.2 [] "s.enc" "pw" [("api-key", "v1")]⟩

/-- Claim C7, counterexample: initializing a new store next to a sidecar
keyfile encrypts under the interactively typed password, not under the
sidecar password that the claimed precedence resolves to, so the
precedence does not govern every secret-store operation. -/
theorem C7_counterexample :
    initCredentials [("creds.enc.keyfile", .plain "sidecarpw")] "creds.enc" ""
        ["typed", "typed"] ""
      = .ok [("creds.enc", .age "typed" (.yamlMap [])),
             ("creds.enc.keyfile", .plain "sidecarpw")] ∧
    specPasswordSource [("creds.enc.keyfile", .plain "sidecarpw")] "creds.enc" ""
        ["typed", "typed"]
      = .ok "sidecarpw" := by
  constructor <;> rfl

/-- Claim C7 as amended: the management commands opening an existing
store resolve the password by the claimed four-step precedence; on
initialize and when creating a new file the resolution is the explicit
keyfile if supplied, else a double prompt whose mismatch fails with the
password-mismatch error (the sidecar and directory keyfiles are not
consulted); the daemon's startup load likewise uses only the explicit
keyfile or a single prompt. -/
theorem C7_password_amended :
    (∀ (fs : FS) (credsPath keyfilePath : String) (prompts : List String),
      getPassword fs credsPath keyfilePath prompts
        = specPasswordSource fs credsPath keyfilePath prompts) ∧
    (∀ (fs : FS) (p1 p2 : String) (rest : List String),
      getNewPassword fs "" (p1 :: p2 :: rest)
        = if p1 = p2 then .ok p1 else .error "passwords don't match") ∧
    (∀ (fs : FS) (credsPath keyfilePath : String) (prompts : List String),
      keyfilePath ≠ "" →
      getNewPassword fs keyfilePath prompts
        = getPassword fs credsPath keyfilePath prompts) ∧
    (∀ (fs : FS) (p : String) (rest : List String),
      serverPassword fs "" (p :: rest) = .ok p) := by
  refine ⟨fun fs cp kp pr => rfl, ?_, ?_, fun fs p rest => rfl⟩
  · intro fs p1 p2 rest
    by_cases h : p1 = p2 <;> simp [getNewPassword, h]
  · intro fs cp kp pr h
    simp [getNewPassword, getPassword, h]

/-- Claim C7 witness: the precedence agreement and the explicit-keyfile
agreement at concrete inputs. -/
theorem C7_witness :
    getPassword [("c.enc.keyfile", .plain "kf")] "c.enc" "" []
      = specPasswordSource [("c.enc.keyfile", .plain "kf")] "c.enc" "" [] ∧
    getNewPassword [] "kfpath" ["a"] = getPassword [] "c.enc" "kfpath" ["a"] :=
  ⟨C7_password_amended.1 _ _ _ _,
   C7_password_amended.2.2.1 [] "c.enc" "kfpath" ["a"] (by decide)⟩

/-- Claim C10: whenever removing a secret fails, for whatever reason, the
command returns before its write step and the store file on disk is
unchanged. -/
theorem C10_remove_error_atomic (fs : FS)
    (credsPath secretName keyfilePath : String) (prompts : List String)
    (e : String)
    (h : (removeSecret fs credsPath secretName keyfilePath prompts).1 = .error e) :
    (removeSecret fs credsPath secretName keyfilePath prompts).2 = fs := by
  unfold removeSecret
  unfold removeSecret at h
  repeat' split at h <;> try rfl
  repeat' split <;> simp_all

/-- Claim C10 witness: removing from an absent store file errors and
leaves the filesystem untouched. -/
theorem C10_witness :
    (removeSecret [] "store.enc" "k" "" []).2 = [] :=
  C10_remove_error_atomic [] "store.enc" "k" "" [] "reading file" rfl

end Credwrap
